import Mathlib

/-!
Verification of the analysis/review core of `notion-recipe-organizer`.

The definitions below are a shallow embedding of the Python source:

* `src/src/notion_client/analyzer.py` — `categorize_recipes_llm` (range/sample
  selection, batch scheduling, per-record analysis and aggregation,
  `_process_in_batches`, `_process_single_batch`, `_analyze_and_store_recipe`,
  `_analyze_single_recipe`, `_calculate_content_quality_stats`);
* `src/src/notion_client/reviewer.py` — `export_to_csv`, `import_corrections`,
  `_process_csv_row`;
* `src/src/commands/analyze_cmd.py` — the sample/range conflict validation step.

Python integers are modelled by `Int` (command-line parameters may be
negative), Python float delays by `ℚ`, Python `dict.get` by `Option`, and the
per-record classification-service call by an oracle `Int → ServiceOutcome`
indexed by the recipe index passed to `_analyze_single_recipe`.  Disk,
console and HTTP I/O are outside the embedding; the classification response
is modelled at the point where the code has the raw text in hand.
-/

namespace RecipeOrganizer

/-! ## Python semantics helpers -/

/-- Python truthiness-based fallback `x or d` for an optional integer
(`None` and `0` are falsy, everything else is truthy). -/
def pyOrInt (o : Option Int) (dflt : Int) : Int :=
  match o with
  | none => dflt
  | some v => if v = 0 then dflt else v

/-- Python truthiness of an optional integer (`None` and `0` are falsy). -/
def pyTruthyInt (o : Option Int) : Bool :=
  match o with
  | none => false
  | some v => v != 0

/-- Python truthiness of an optional string (`None` and `""` are falsy). -/
def pyTruthyStr (o : Option String) : Bool :=
  match o with
  | none => false
  | some s => s != ""

/-- Python slice `xs[a:b]`: negative endpoints count from the end, and the
normalised bounds are clamped into `[0, len]`. -/
def pySlice (xs : List α) (a b : Int) : List α :=
  let n : Int := xs.length
  let lo : Nat := if a < 0 then (max 0 (n + a)).toNat else min a.toNat xs.length
  let hi : Nat := if b < 0 then (max 0 (n + b)).toNat else min b.toNat xs.length
  (xs.take hi).drop lo

/-- Python floor division `//` on integers. -/
def pyFloorDiv (a b : Int) : Int := Int.fdiv a b

/-- Python `str.strip()` (defaults to stripping surrounding whitespace):
drop whitespace from both ends of the character sequence. -/
def pyStrip (s : String) : String :=
  ⟨((s.data.dropWhile Char.isWhitespace).reverse.dropWhile Char.isWhitespace).reverse⟩

/-- Python `str.lower()`. -/
def pyLower (s : String) : String := ⟨s.data.map Char.toLower⟩

/-- Python `str(b)` for a boolean. -/
def pyStrBool (b : Bool) : String := if b then "True" else "False"

/-- Base-10 digit-group scanner for `pyInt`: `expectDigit` is true at the
start and right after an underscore, where a digit is mandatory (Python
allows single underscores between digits, nowhere else). -/
def pyIntDigits (expectDigit : Bool) (acc : Nat) : List Char → Option Nat
  | [] => if expectDigit then none else some acc
  | c :: rest =>
      if c = '_' then
        if expectDigit then none else pyIntDigits true acc rest
      else if c.isDigit then
        pyIntDigits false (acc * 10 + (c.toNat - Char.toNat '0')) rest
      else none

/-- Python `int(s)` on an already-stripped string: an optional sign followed
by base-10 digits (with interior underscores); anything else raises
`ValueError`, modelled as `none`. -/
def pyInt (s : String) : Option Int :=
  match s.data with
  | '-' :: rest => (pyIntDigits true 0 rest).map (fun n => -(n : Int))
  | '+' :: rest => (pyIntDigits true 0 rest).map (fun n => (n : Int))
  | cs => (pyIntDigits true 0 cs).map (fun n => (n : Int))

/-! ## Data model (§3 of the spec)

A `Record` mirrors one entry of `recipe_data["records"]`; the `Option` fields
model `dict.get` with the defaults used at each access site
(`record.get("title", "Untitled")`, `record.get("tags", [])`,
`record.get("record_id", "")`).  The `url` key is never read by the core. -/

structure Record where
  title : Option String
  tags : Option (List String)
  record_id : Option String
deriving Repr, DecidableEq

/-- A classification response that decoded as a single JSON object
(the shape required by the service contract, §6 of the spec); every key is
optional, mirroring `result.get(key, default)` / `key in result` on the
parsed dictionary.  `extra_keys` lists any keys of the decoded object other
than the recognized ones, so that the dictionary's Python truthiness
(`if categorization:` in `_analyze_and_store_recipe`) is representable. -/
structure Payload where
  is_recipe : Option Bool
  content_summary : Option String
  title_needs_improvement : Option Bool
  proposed_title : Option String
  quality_score : Option Int
  primary_category : Option String
  cuisine_type : Option String
  dietary_tags : Option (List String)
  usage_tags : Option (List String)
  confidence : Option Int
  reasoning : Option String
  extra_keys : List String
deriving Repr, DecidableEq

/-- The payload of the empty JSON object: every key absent. -/
def Payload.empty : Payload :=
  ⟨none, none, none, none, none, none, none, none, none, none, none, []⟩

/-- Python truthiness of the decoded JSON object: a dictionary is falsy
iff it has no keys at all. -/
def Payload.pyTruthy (p : Payload) : Bool :=
  p.is_recipe.isSome || p.content_summary.isSome ||
    p.title_needs_improvement.isSome || p.proposed_title.isSome ||
    p.quality_score.isSome || p.primary_category.isSome ||
    p.cuisine_type.isSome || p.dietary_tags.isSome || p.usage_tags.isSome ||
    p.confidence.isSome || p.reasoning.isSome || !p.extra_keys.isEmpty

/-- Outcome of one classification-service call in `_analyze_single_recipe`:
either the call raised (timeout, service error — the outer `except`), or it
returned raw text, which either fails `json.loads` (`response none`) or
decodes as a JSON object (`response (some payload)`). -/
inductive ServiceOutcome where
  | serviceFailure
  | response (parsed : Option Payload)
deriving Repr, DecidableEq

/-- One entry of `results["categorizations"]`: the parsed payload with
`original_title`, `existing_tags`, `record_id` and `recipe_index` stamped
on by `_analyze_and_store_recipe`. -/
structure Categorization extends Payload where
  original_title : String
  existing_tags : List String
  record_id : String
  recipe_index : Int
deriving Repr, DecidableEq

/-- One entry of `results["failed_analyses"]`. -/
structure FailedAnalysis where
  recipe_index : Int
  title : String
  existing_tags : List String
deriving Repr, DecidableEq

/-- Model of `results["content_quality_stats"]`. -/
structure ContentQualityStats where
  non_recipes : Nat
  titles_needing_improvement : Nat
  average_quality_score : ℚ
  quality_distribution : List (Int × Nat)
deriving Repr, DecidableEq

/-- The aggregate report built by `categorize_recipes_llm`
(`processing_info` is display-only metadata and is not modelled). -/
structure Results where
  total_analyzed : Nat
  total_attempted : Nat
  categorizations : List Categorization
  category_distribution : List (String × Nat)
  cuisine_distribution : List (String × Nat)
  dietary_tags_distribution : List (String × Nat)
  usage_tags_distribution : List (String × Nat)
  failed_analyses : List FailedAnalysis
  content_quality_stats : ContentQualityStats
deriving Repr, DecidableEq

/-- The initial report (`categorization_results` literal, lines 172–194 of
`analyzer.py`): all counters zero, all distributions empty,
`total_attempted` set to the size of the working set. -/
def initResults (totalRecipes : Nat) : Results :=
  { total_analyzed := 0
    total_attempted := totalRecipes
    categorizations := []
    category_distribution := []
    cuisine_distribution := []
    dietary_tags_distribution := []
    usage_tags_distribution := []
    failed_analyses := []
    content_quality_stats :=
      { non_recipes := 0
        titles_needing_improvement := 0
        average_quality_score := 0
        quality_distribution := [] } }

/-- The `defaultdict(int)` increment: bump the count stored under `k`
(inserting `k ↦ 1` if absent). -/
def incr [DecidableEq κ] (d : List (κ × Nat)) (k : κ) : List (κ × Nat) :=
  match d with
  | [] => [(k, 1)]
  | (k', v) :: rest => if k' = k then (k', v + 1) :: rest else (k', v) :: incr rest k

/-- Increment a distribution once per element of a list
(the `for tag in ...` loops of `_analyze_and_store_recipe`). -/
def incrAll [DecidableEq κ] (d : List (κ × Nat)) (ks : List κ) : List (κ × Nat) :=
  ks.foldl incr d

/-- Sum of the counts of a distribution. -/
def sumCounts [DecidableEq κ] (d : List (κ × Nat)) : Nat :=
  (d.map (·.2)).sum

/-! ## Categorization Worker (`_analyze_single_recipe`, lines 392–459) -/

/-- The required keys checked in content-review mode. -/
def requiredFields : List String :=
  ["is_recipe", "content_summary", "title_needs_improvement",
   "proposed_title", "quality_score", "primary_category"]

/-- Membership test `field in result` on the parsed JSON object. -/
def Payload.hasField (p : Payload) : String → Bool
  | "is_recipe" => p.is_recipe.isSome
  | "content_summary" => p.content_summary.isSome
  | "title_needs_improvement" => p.title_needs_improvement.isSome
  | "proposed_title" => p.proposed_title.isSome
  | "quality_score" => p.quality_score.isSome
  | "primary_category" => p.primary_category.isSome
  | _ => false

/-- The `missing_fields` list computed (and only logged) in content-review
mode. -/
def missingFields (p : Payload) : List String :=
  requiredFields.filter (fun f => ¬ p.hasField f)

/-- The worker `_analyze_single_recipe`: a raised call or undecodable response text
yields `None` (a terminal per-record failure); a decoded JSON object is
returned as-is.  In content-review mode `missing_fields` is computed and
logged, but the result is returned regardless. -/
def analyzeSingleRecipe (includeContentReview : Bool) (outcome : ServiceOutcome) :
    Option Payload :=
  match outcome with
  | .serviceFailure => none
  | .response none => none
  | .response (some result) =>
      -- `if include_content_review: ... logger.warning(missing_fields)` —
      -- logging only, no effect on the returned value.
      let _ := if includeContentReview then missingFields result else []
      some result

/-! ## Result Aggregator (`_analyze_and_store_recipe`, lines 333–390) -/

/-- Fold one record's outcome into the running report.  The branch test is
`if categorization:` — Python dictionary truthiness — so the success branch
(stamp the identifying fields onto the payload, append it, bump
`total_analyzed` and the distributions, content-quality counters only in
content-review mode) is taken only for a decoded object with at least one
key; a `None` result *or a decoded but empty object* appends a
`FailedAnalysis`. -/
def analyzeAndStoreRecipe (oracle : Int → ServiceOutcome)
    (includeContentReview : Bool) (record : Record) (recipeIdx : Int)
    (results : Results) : Results :=
  let title := record.title.getD "Untitled"
  let existing_tags := record.tags.getD []
  match analyzeSingleRecipe includeContentReview (oracle recipeIdx) with
  | some payload =>
      if payload.pyTruthy then
        let cat : Categorization :=
          { toPayload := payload
            original_title := title
            existing_tags := existing_tags
            record_id := record.record_id.getD ""
            recipe_index := recipeIdx }
        let results := { results with
          categorizations := results.categorizations ++ [cat]
          total_analyzed := results.total_analyzed + 1 }
        let results :=
          if pyTruthyStr cat.primary_category then
            { results with
              category_distribution :=
                incr results.category_distribution (cat.primary_category.getD "") }
          else results
        let results :=
          if pyTruthyStr cat.cuisine_type then
            { results with
              cuisine_distribution :=
                incr results.cuisine_distribution (cat.cuisine_type.getD "") }
          else results
        let results := { results with
          dietary_tags_distribution :=
            incrAll results.dietary_tags_distribution (cat.dietary_tags.getD [])
          usage_tags_distribution :=
            incrAll results.usage_tags_distribution (cat.usage_tags.getD []) }
        if includeContentReview then
          let s := results.content_quality_stats
          let s := if ¬ (cat.is_recipe.getD true) then
              { s with non_recipes := s.non_recipes + 1 } else s
          let s := if cat.title_needs_improvement.getD false then
              { s with titles_needing_improvement := s.titles_needing_improvement + 1 }
            else s
          let qs := cat.quality_score.getD 0
          let s := if qs > 0 then
              { s with quality_distribution := incr s.quality_distribution qs } else s
          { results with content_quality_stats := s }
        else results
      else
        -- the empty dictionary is falsy, so a decoded empty object lands here
        { results with failed_analyses := results.failed_analyses ++
            [{ recipe_index := recipeIdx, title := title,
               existing_tags := existing_tags }] }
  | none =>
      { results with failed_analyses := results.failed_analyses ++
          [{ recipe_index := recipeIdx, title := title,
             existing_tags := existing_tags }] }

/-! ## Batch Scheduler (`_process_single_batch` / `_process_in_batches`,
lines 246–331) -/

/-- Observable scheduling events: one per processed batch, plus the
`time.sleep(batch_delay)` between batches. -/
inductive BatchEvent (α : Type) where
  | batch (records : List α)
  | sleep (delay : ℚ)
deriving Repr, DecidableEq

/-- The `for i, record in enumerate(records)` loop shared by both batch
paths: analyze and store each record of the batch at recipe index
`startIdx + i`. -/
def processRecordsLoop (oracle : Int → ServiceOutcome)
    (includeContentReview : Bool) :
    List Record → Int → Results → Results
  | [], _, results => results
  | record :: rest, recipeIdx, results =>
      processRecordsLoop oracle includeContentReview rest (recipeIdx + 1)
        (analyzeAndStoreRecipe oracle includeContentReview record recipeIdx results)

/-- The `for batch_num in range(num_batches)` loop of `_process_in_batches`:
`fuel` counts the remaining iterations (`num_batches - batch_num`), `bn` is
`batch_num`.  Each iteration slices `records[batch_num*batch_size :
min(batch_num*batch_size + batch_size, len(records))]`, processes the slice,
and sleeps between batches when `batch_delay > 0`. -/
def processInBatchesLoop (oracle : Int → ServiceOutcome)
    (includeContentReview : Bool) (records : List Record) (batchSize : Int)
    (batchDelay : ℚ) (startOffset : Int) (numBatches : Nat) :
    Nat → Nat → Results → Results × List (BatchEvent Record)
  | 0, _, results => (results, [])
  | fuel + 1, bn, results =>
      let startIdx : Int := (bn : Int) * batchSize
      let endIdx : Int := min (startIdx + batchSize) (records.length : Int)
      let batchRecords := pySlice records startIdx endIdx
      let results := processRecordsLoop oracle includeContentReview batchRecords
        (startOffset + startIdx) results
      let sleeps := if batchDelay > 0 ∧ bn < numBatches - 1 then
          [BatchEvent.sleep batchDelay] else []
      let rest := processInBatchesLoop oracle includeContentReview
        records batchSize batchDelay startOffset numBatches fuel (bn + 1) results
      (rest.1, BatchEvent.batch batchRecords :: (sleeps ++ rest.2))

/-- The scheduler `_process_in_batches`: `num_batches = (len(records) + batch_size - 1)
// batch_size` batches, processed strictly sequentially. -/
def processInBatches (oracle : Int → ServiceOutcome)
    (includeContentReview : Bool) (records : List Record) (batchSize : Int)
    (batchDelay : ℚ) (startOffset : Int) (results : Results) :
    Results × List (BatchEvent Record) :=
  let numBatches : Int :=
    pyFloorDiv ((records.length : Int) + batchSize - 1) batchSize
  processInBatchesLoop oracle includeContentReview records batchSize batchDelay
    startOffset numBatches.toNat numBatches.toNat 0 results

/-- The fallback `_process_single_batch`: one pass over all records, no delay. -/
def processSingleBatch (oracle : Int → ServiceOutcome)
    (includeContentReview : Bool) (records : List Record) (startOffset : Int)
    (results : Results) : Results × List (BatchEvent Record) :=
  (processRecordsLoop oracle includeContentReview records startOffset results,
   [BatchEvent.batch records])

/-! ## Range/Sample Resolver (`categorize_recipes_llm`, lines 154–168) -/

/-- The selection step at the top of `categorize_recipes_llm`: a supplied
range is applied first (`records[start_idx : end_idx + 1]` when `end_index`
is not `None`, else `records[start_idx:]`, with the falsy-fallback bounds
`start_idx = start_index or 0` and `end_idx = end_index or len(records)`);
otherwise a truthy `sample_size` takes `records[:sample_size]`; otherwise the
whole collection. -/
def selectRecords (sampleSize startIndex endIndex : Option Int)
    (records : List Record) : List Record :=
  if startIndex ≠ none ∨ endIndex ≠ none then
    let startIdx := pyOrInt startIndex 0
    let endIdx := pyOrInt endIndex (records.length : Int)
    if endIndex ≠ none then pySlice records startIdx (endIdx + 1)
    else pySlice records startIdx (records.length : Int)
  else if pyTruthyInt sampleSize then
    pySlice records 0 (sampleSize.getD 0)
  else records

/-! ## Post-processing (`_calculate_content_quality_stats`, lines 567–581) -/

/-- Set `average_quality_score` to the mean of the `quality_score` values
that are `> 0`, leaving it untouched when there are no categorizations or no
positive scores. -/
def calculateContentQualityStats (results : Results) : Results :=
  if results.categorizations = [] then results
  else
    let qualityScores :=
      (results.categorizations.map (fun c => c.quality_score.getD 0)).filter
        (fun q => q > 0)
    if qualityScores ≠ [] then
      { results with content_quality_stats :=
          { results.content_quality_stats with
            average_quality_score :=
              (qualityScores.sum : ℚ) / (qualityScores.length : ℚ) } }
    else results

/-! ## Top level (`categorize_recipes_llm`, lines 142–244) -/

/-- One full run of `categorize_recipes_llm`: select the working set, set
`total_attempted`, dispatch to the batch scheduler
(`if batch_size and batch_size < total_recipes`) or the single pass, then
compute the quality statistics.  Returns the aggregate report and the
scheduling trace. -/
def categorizeRecipesLLM (oracle : Int → ServiceOutcome)
    (recipeData : List Record)
    (sampleSize startIndex endIndex batchSize : Option Int)
    (batchDelay : ℚ) (includeContentReview : Bool) :
    Results × List (BatchEvent Record) :=
  let records := selectRecords sampleSize startIndex endIndex recipeData
  let totalRecipes := records.length
  let init := initResults totalRecipes
  let startOffset := pyOrInt startIndex 0
  let run :=
    match batchSize with
    | some b =>
        if b ≠ 0 ∧ b < (totalRecipes : Int) then
          processInBatches oracle includeContentReview records b batchDelay
            startOffset init
        else
          processSingleBatch oracle includeContentReview records startOffset init
    | none => processSingleBatch oracle includeContentReview records startOffset init
  (calculateContentQualityStats run.1, run.2)

/-! ## Review Reconciler — export (`export_to_csv`, lines 69–172 of
`reviewer.py`) -/

/-- One row of the review CSV (all cells are text; `DictReader` hands the
same shape back on import). -/
structure CsvRow where
  recipe_index : String
  record_id : String
  original_title : String
  proposed_title : String
  title_needs_improvement : String
  is_recipe : String
  primary_category : String
  cuisine_type : String
  dietary_tags : String
  usage_tags : String
  quality_score : String
  content_summary : String
  confidence : String
  reasoning : String
  existing_tags : String
  corrected_title : String
  corrected_category : String
  corrected_is_recipe : String
  review_notes : String
  approved : String
deriving Repr, DecidableEq

/-- Render an optional value the way `csv.DictWriter` writes the result of
`cat.get(key, "")`: the value's string form if the key is present, else the
empty string. -/
def cellOfOptInt (o : Option Int) : String :=
  match o with
  | some v => toString v
  | none => ""

/-- The row written for one categorization (lines 140–165): original fields
rendered to text, review cells left empty. -/
def exportRow (cat : Categorization) : CsvRow :=
  { recipe_index := toString cat.recipe_index
    record_id := cat.record_id
    original_title := cat.original_title
    proposed_title := cat.proposed_title.getD ""
    title_needs_improvement := pyStrBool (cat.title_needs_improvement.getD false)
    is_recipe := pyStrBool (cat.is_recipe.getD true)
    primary_category := cat.primary_category.getD ""
    cuisine_type := cat.cuisine_type.getD ""
    dietary_tags := String.intercalate "; " (cat.dietary_tags.getD [])
    usage_tags := String.intercalate "; " (cat.usage_tags.getD [])
    quality_score := cellOfOptInt cat.quality_score
    content_summary := cat.content_summary.getD ""
    confidence := cellOfOptInt cat.confidence
    reasoning := cat.reasoning.getD ""
    existing_tags := String.intercalate "; " cat.existing_tags
    corrected_title := ""
    corrected_category := ""
    corrected_is_recipe := ""
    review_notes := ""
    approved := "" }

/-- Export `export_to_csv`: optionally filter to the rows with potential issues
(`not is_recipe or title_needs_improvement or quality_score < 3`, with the
defaults of lines 92–98), then emit one row per categorization. -/
def exportRows (focusOnIssues : Bool) (cats : List Categorization) :
    List CsvRow :=
  let cats :=
    if focusOnIssues then
      cats.filter (fun c =>
        ¬ (c.is_recipe.getD true) ∨ (c.title_needs_improvement.getD false) ∨
          c.quality_score.getD 5 < 3)
    else cats
  cats.map exportRow

/-! ## Review Reconciler — import (`import_corrections` /
`_process_csv_row`, lines 174–231 and 710–758) -/

/-- The `corrections` dictionary built for one row; each key is present iff
the corresponding check added it. -/
structure Corrections where
  title : Option String
  primary_category : Option String
  is_recipe : Option Bool
  review_notes : Option String
deriving Repr, DecidableEq

/-- Python truthiness of the `corrections` dict: empty iff no key was added. -/
def Corrections.isEmpty (c : Corrections) : Bool :=
  c.title.isNone && c.primary_category.isNone && c.is_recipe.isNone &&
    c.review_notes.isNone

/-- One emitted correction (lines 745–750). -/
structure Correction where
  recipe_index : Int
  record_id : String
  original_title : String
  corrections : Corrections
deriving Repr, DecidableEq

/-- A non-fatal per-row import issue (line 755). -/
structure ImportIssue where
  row : Nat
  message : String
deriving Repr, DecidableEq

/-- The correction checks of `_process_csv_row` (lines 717–741): `title` if
the stripped `corrected_title` is non-empty and differs from
`original_title`; `primary_category` likewise against the stored category;
`is_recipe` if `corrected_is_recipe` lowercases to a boolean literal that
differs from the stored value; `review_notes` verbatim if non-empty. -/
def buildCorrections (row : CsvRow) : Corrections :=
  let corrected_title := pyStrip row.corrected_title
  let title :=
    if corrected_title ≠ "" ∧ corrected_title ≠ row.original_title then
      some corrected_title
    else none
  let corrected_category := pyStrip row.corrected_category
  let primary_category :=
    if corrected_category ≠ "" ∧ corrected_category ≠ row.primary_category then
      some corrected_category
    else none
  let corrected_is_recipe := pyLower (pyStrip row.corrected_is_recipe)
  let is_recipe :=
    if corrected_is_recipe = "true" ∨ corrected_is_recipe = "false" then
      let original_is_recipe := pyLower row.is_recipe
      if corrected_is_recipe ≠ original_is_recipe then
        some (corrected_is_recipe == "true")
      else none
    else none
  let review_notes_cell := pyStrip row.review_notes
  let review_notes := if review_notes_cell ≠ "" then some review_notes_cell else none
  { title := title, primary_category := primary_category,
    is_recipe := is_recipe, review_notes := review_notes }

/-- Row handling `_process_csv_row`: skip rows with a blank `recipe_index`; build the
corrections dict; emit a `Correction` only if it is non-empty, at which point
`int(recipe_index)` may raise — the `except` clause records the row as
an import issue.  Returns (emitted correction?, recorded issue?). -/
def processCsvRow (row : CsvRow) (rowNum : Nat) :
    Option Correction × Option ImportIssue :=
  let recipe_index := pyStrip row.recipe_index
  if recipe_index = "" then (none, none)
  else
    let corrections := buildCorrections row
    if ¬ corrections.isEmpty then
      match pyInt recipe_index with
      | some idx =>
          (some { recipe_index := idx
                  record_id := row.record_id
                  original_title := row.original_title
                  corrections := corrections }, none)
      | none =>
          (none, some { row := rowNum
                        message := "Error processing row: invalid literal for int() with base 10: " ++ recipe_index })
    else (none, none)

/-- The final corrections artifact (`corrections_data`, lines 210–216;
`timestamp` and `source_csv` are I/O metadata and are not modelled). -/
structure CorrectionsData where
  total_corrections : Nat
  corrections : List Correction
  import_issues : List ImportIssue
deriving Repr, DecidableEq

/-- The row loop of `import_corrections` (lines 188–193): rows are numbered
from 2 (the header is row 1); corrections and issues are accumulated in
order. -/
def importCorrectionsLoop :
    List (Nat × CsvRow) → List Correction → List ImportIssue →
      List Correction × List ImportIssue
  | [], corrections, issues => (corrections, issues)
  | (rowNum, row) :: rest, corrections, issues =>
      let (copt, iopt) := processCsvRow row rowNum
      importCorrectionsLoop rest (corrections ++ copt.toList) (issues ++ iopt.toList)

/-- Import `import_corrections`: process every row; the artifact is written only
when at least one correction was found (`if corrections:` — otherwise the
function reports "No corrections found" and returns `None`). -/
def importCorrections (rows : List CsvRow) : Option CorrectionsData :=
  let (corrections, issues) := importCorrectionsLoop (rows.enumFrom 2) [] []
  if corrections ≠ [] then
    some { total_corrections := corrections.length
           corrections := corrections
           import_issues := issues }
  else none

/-- The corrections an import emits, row by row (specification view of the
accumulation). -/
def collectCorrections (rows : List CsvRow) : List Correction :=
  (rows.enumFrom 2).filterMap (fun p => (processCsvRow p.2 p.1).1)

/-- The import issues an import records, row by row. -/
def collectIssues (rows : List CsvRow) : List ImportIssue :=
  (rows.enumFrom 2).filterMap (fun p => (processCsvRow p.2 p.1).2)

/-! ## Command-level validation (`analyze_cmd.py`, lines 137–143) -/

/-- The selection-related settings assembled by the `analyze` command. -/
structure SelectionSettings where
  sample_size : Option Int
  start_index : Option Int
  end_index : Option Int
deriving Repr, DecidableEq

/-- The parameter-combination validation of the `analyze` command: when a
truthy `sample_size` coexists with a supplied range, warn
("Sample mode overrides range specification") and drop the range keys.
Returns the settings together with whether the warning was printed. -/
def validateSampleRange (s : SelectionSettings) : SelectionSettings × Bool :=
  if pyTruthyInt s.sample_size ∧ (s.start_index ≠ none ∨ s.end_index ≠ none) then
    ({ s with start_index := none, end_index := none }, true)
  else (s, false)

/-- The working set the `analyze` command ends up analyzing: validation
followed by the resolver. -/
def commandSelect (s : SelectionSettings) (records : List Record) : List Record :=
  let (s, _warned) := validateSampleRange s
  selectRecords s.sample_size s.start_index s.end_index records

/-! ## Specification-side observation functions

These are not translations of source code; they are the vocabulary in which
the claims about the scheduler trace and the quality statistics are
stated. -/

/-- The batches of a scheduling trace, in order. -/
def batchesOf (t : List (BatchEvent α)) : List (List α) :=
  t.filterMap (fun e =>
    match e with
    | .batch l => some l
    | .sleep _ => none)

/-- The trace shape claimed by §4.2 of the spec: one `batch` event per
batch, with a `sleep` after every batch except the last. -/
def sleepSeparated (delay : ℚ) : List (List α) → List (BatchEvent α)
  | [] => []
  | [l] => [BatchEvent.batch l]
  | l :: l' :: ls => BatchEvent.batch l :: BatchEvent.sleep delay ::
      sleepSeparated delay (l' :: ls)

/-- The mean of the positive quality scores of a list of categorizations
(`0` when there are none) — the value §4.4 of the spec assigns to
`average_quality_score`. -/
def meanPositiveQualityScores (cats : List Categorization) : ℚ :=
  let qs := (cats.map (fun c => c.quality_score.getD 0)).filter (fun q => q > 0)
  if qs = [] then 0 else (qs.sum : ℚ) / (qs.length : ℚ)

/-! ## Concrete data used by witnesses and counterexamples -/

/-- A sample input record. -/
def recA : Record := ⟨some "Pasta Carbonara", some ["Dinner"], some "rec-a"⟩

/-- A sample input record. -/
def recB : Record := ⟨some "Tacos", some [], some "rec-b"⟩

/-- A sample input record. -/
def recC : Record := ⟨some "Pancakes", some [], some "rec-c"⟩

/-- An oracle whose every response fails `json.loads`. -/
def invalidJsonOracle : Int → ServiceOutcome := fun _ => .response none

/-- An oracle mixing per-record successes and failures: even recipe indices
succeed, odd ones return undecodable text. -/
def mixedOracle : Int → ServiceOutcome := fun i =>
  if i % 2 = 0 then
    .response (some { Payload.empty with primary_category := some "Chicken" })
  else .response none

/-- A response payload carrying only a category and a quality score
(the other required keys are absent). -/
def payloadBeef : Payload :=
  { Payload.empty with quality_score := some 4, primary_category := some "Beef" }

/-- An oracle that always returns `payloadBeef`. -/
def beefOracle : Int → ServiceOutcome := fun _ => .response (some payloadBeef)

/-- A sample stored categorization, as the reviewer would see it. -/
def catTacos : Categorization :=
  { toPayload := payloadBeef, original_title := "Tacos", existing_tags := [],
    record_id := "rec-b", recipe_index := 0 }

/-- The scheduling trace of a three-record run with `batch_size = 2` and a
one-second delay. -/
def traceC6 : List (BatchEvent Record) :=
  [BatchEvent.batch [recA, recB], BatchEvent.sleep 1, BatchEvent.batch [recC]]

/-- An exported row whose only edit sets `corrected_title`. -/
def rowTitleEdit : CsvRow := { exportRow catTacos with corrected_title := "Crispy Tacos" }

/-- An exported row whose index cell was mangled and that carries a note. -/
def rowBadIndex : CsvRow :=
  { exportRow catTacos with recipe_index := "x", review_notes := "check me" }

/-- An exported review table with one title edit and one malformed-index row. -/
def editedRows : List CsvRow := [rowTitleEdit, rowBadIndex]

/-- The artifact `import_corrections` produces for `editedRows`. -/
def editedArtifact : CorrectionsData :=
  { total_corrections := 1
    corrections :=
      [{ recipe_index := 0, record_id := "rec-b", original_title := "Tacos",
         corrections := { title := some "Crispy Tacos", primary_category := none,
                          is_recipe := none, review_notes := none } }]
    import_issues :=
      [{ row := 3,
         message := "Error processing row: invalid literal for int() with base 10: x" }] }

end RecipeOrganizer

namespace RecipeOrganizer

/-! # Theorems

Helper lemmas come first; each claim is settled by a single theorem
(`C1_...` … `C10_...`), with witnesses and counterexamples named
`..._witness` / `..._counterexample`. -/

/-! ## Reviewer lemmas -/

/-- An unedited exported row yields no correction and no issue. -/
theorem processCsvRow_exportRow (cat : Categorization) (n : Nat) :
    processCsvRow (exportRow cat) n = (none, none) := by
  have hb : buildCorrections (exportRow cat) =
      { title := none, primary_category := none, is_recipe := none,
        review_notes := none } := rfl
  unfold processCsvRow
  by_cases h : pyStrip (exportRow cat).recipe_index = "" <;> simp [h, hb, Corrections.isEmpty]

/-- The import loop appends exactly the row-by-row corrections and issues. -/
theorem importCorrectionsLoop_spec (l : List (Nat × CsvRow))
    (cs : List Correction) (is' : List ImportIssue) :
    importCorrectionsLoop l cs is' =
      (cs ++ l.filterMap (fun p => (processCsvRow p.2 p.1).1),
       is' ++ l.filterMap (fun p => (processCsvRow p.2 p.1).2)) := by
  induction l generalizing cs is' with
  | nil => simp [importCorrectionsLoop]
  | cons p rest ih =>
      obtain ⟨n, row⟩ := p
      simp only [importCorrectionsLoop, List.filterMap_cons]
      rcases hc : processCsvRow row n with ⟨copt, iopt⟩
      rw [ih]
      cases copt <;> cases iopt <;> simp

/-- Unedited exported rows contribute nothing to the import loop. -/
theorem importCorrectionsLoop_exportRow (cats : List Categorization) (k : Nat)
    (cs : List Correction) (is' : List ImportIssue) :
    importCorrectionsLoop ((cats.map exportRow).enumFrom k) cs is' = (cs, is') := by
  induction cats generalizing k cs is' with
  | nil => simp [importCorrectionsLoop]
  | cons c rest ih =>
      simp only [List.map_cons, List.enumFrom_cons, importCorrectionsLoop,
        processCsvRow_exportRow]
      simpa using ih (k + 1) cs is'

/-! ## Claim C4 -/

/-- Claim C4, corrected.  An export-then-import round trip with zero edits
emits zero Corrections — but then `import_corrections` produces no artifact
at all (it reports "No corrections found" and returns `None`) rather than an
artifact with `total_corrections == 0`.  Whenever an artifact is produced
(at least one Correction), it carries all emitted Corrections, with
`total_corrections` equal to their number, and the full per-row issue list
even when that list is empty; an import that produces no artifact is exactly
one that emitted no Correction. -/
theorem C4_import_artifact :
    (∀ (focusOnIssues : Bool) (cats : List Categorization),
        importCorrections (exportRows focusOnIssues cats) = none)
    ∧ (∀ (rows : List CsvRow) (a : CorrectionsData),
        importCorrections rows = some a →
          a.total_corrections = a.corrections.length ∧
          a.corrections = collectCorrections rows ∧
          a.import_issues = collectIssues rows)
    ∧ (∀ rows : List CsvRow,
        importCorrections rows = none → collectCorrections rows = []) := by
  refine ⟨?_, ?_, ?_⟩
  · intro focus cats
    simp only [exportRows, importCorrections, importCorrectionsLoop_exportRow]
    simp
  · intro rows a h
    simp only [importCorrections, importCorrectionsLoop_spec, List.nil_append] at h
    split at h
    · cases h
      simp [collectCorrections, collectIssues]
    · exact absurd h (by simp)
  · intro rows h
    simp only [importCorrections, importCorrectionsLoop_spec, List.nil_append] at h
    split at h
    · exact absurd h (by simp)
    · next he =>
        simp only [collectCorrections]
        exact not_not.mp he

/-- Counterexample to claim C4 as stated: importing the untouched export of
a one-row table produces no artifact at all (so no artifact with
`total_corrections == 0` exists). -/
theorem C4_counterexample :
    exportRows false [catTacos] ≠ [] ∧
      importCorrections (exportRows false [catTacos]) = none := by decide

/-- Witness for C4: a concrete import that does produce its artifact,
carrying the one correction and the one issue. -/
theorem C4_witness :
    importCorrections editedRows = some editedArtifact ∧
    editedArtifact.total_corrections = editedArtifact.corrections.length ∧
    editedArtifact.corrections = collectCorrections editedRows ∧
    editedArtifact.import_issues = collectIssues editedRows :=
  ⟨by decide, C4_import_artifact.2.1 editedRows editedArtifact (by decide)⟩

/-! ## Claim C7 -/

/-- Claim C7, corrected.  Cell values are stripped of surrounding whitespace
before the non-empty/differs checks, and the stripped value is what gets
stored: for an exported row edited only in `corrected_title`, if the
*stripped* value is non-empty and differs from `original_title`, import
emits exactly one Correction whose mapping is exactly
`{"title": <stripped value>}`. -/
theorem C7_title_only_edit (row : CsvRow) (n : Nat) (k : Int)
    (hidx : pyInt (pyStrip row.recipe_index) = some k)
    (hcat : pyStrip row.corrected_category = "")
    (hrec : pyStrip row.corrected_is_recipe = "")
    (hnotes : pyStrip row.review_notes = "")
    (ht1 : pyStrip row.corrected_title ≠ "")
    (ht2 : pyStrip row.corrected_title ≠ row.original_title) :
    processCsvRow row n =
      (some { recipe_index := k, record_id := row.record_id,
              original_title := row.original_title,
              corrections := { title := some (pyStrip row.corrected_title),
                               primary_category := none, is_recipe := none,
                               review_notes := none } }, none) := by
  have hb : buildCorrections row =
      { title := some (pyStrip row.corrected_title), primary_category := none,
        is_recipe := none, review_notes := none } := by
    unfold buildCorrections
    rw [hcat, hrec, hnotes]
    simp [ht1, ht2, pyLower]
  have hne : pyStrip row.recipe_index ≠ "" := by
    intro hstrip
    have h0 : pyInt "" = none := rfl
    rw [hstrip, h0] at hidx
    exact Option.noConfusion hidx
  unfold processCsvRow
  simp [hne, hb, Corrections.isEmpty, hidx]

/-- Counterexample to claim C7 as stated: editing `corrected_title` to
`" Tacos"` — non-empty and different from the original title `"Tacos"` —
yields no Correction at all, because the cell is stripped before the
comparison. -/
theorem C7_counterexample :
    (" Tacos" ≠ "" ∧ " Tacos" ≠ catTacos.original_title) ∧
      processCsvRow { exportRow catTacos with corrected_title := " Tacos" } 2 =
        (none, none) := by decide

/-- Witness for C7: a concrete title-only edit produces exactly the
`{"title": …}` correction. -/
theorem C7_witness :
    processCsvRow rowTitleEdit 2 =
      (some { recipe_index := 0, record_id := "rec-b", original_title := "Tacos",
              corrections := { title := some "Crispy Tacos",
                               primary_category := none, is_recipe := none,
                               review_notes := none } }, none) :=
  C7_title_only_edit rowTitleEdit 2 0 (by decide) (by decide) (by decide)
    (by decide) (by decide) (by decide)

/-! ## Claim C9 -/

/-- Claim C9, confirmed.  A row whose (stripped) `recipe_index` is non-blank
but unparseable never emits a Correction, and it is recorded as an import
issue precisely when the row carries at least one correction (an edited
`corrected_*` cell or non-empty `review_notes`) — otherwise the row is
dropped silently, because `int(recipe_index)` only runs once a non-empty
corrections mapping exists. -/
theorem C9_malformed_index (row : CsvRow) (n : Nat)
    (hne : pyStrip row.recipe_index ≠ "")
    (hbad : pyInt (pyStrip row.recipe_index) = none) :
    (processCsvRow row n).1 = none ∧
      ((processCsvRow row n).2.isSome ↔ (buildCorrections row).isEmpty = false) := by
  unfold processCsvRow
  by_cases he : (buildCorrections row).isEmpty <;> simp [hne, hbad, he]

/-- Witness for C9: a malformed-index row carrying a review note is
recorded as an issue and emits no Correction. -/
theorem C9_witness :
    (pyStrip rowBadIndex.recipe_index ≠ "" ∧
        pyInt (pyStrip rowBadIndex.recipe_index) = none) ∧
      (processCsvRow rowBadIndex 3).1 = none ∧
      ((processCsvRow rowBadIndex 3).2.isSome ↔
        (buildCorrections rowBadIndex).isEmpty = false) :=
  ⟨⟨by decide, by decide⟩, C9_malformed_index rowBadIndex 3 (by decide) (by decide)⟩

/-! ## Claim C2 -/

/-- Claim C2: evaluation of the code at the failing input
`N = 2, start_index = 0, end_index = 0`.  Because the end bound is computed
with `end_index or len(records)`, the falsy value `0` falls back to
`len(records)` and the slice `records[0 : len+1]` keeps both records, so
`total_attempted = 2` where the claim (and §4.1 of the spec) require
`e - s + 1 = 1`. -/
theorem C2_end_index_zero :
    selectRecords none (some 0) (some 0) [recA, recB] = [recA, recB] ∧
      (categorizeRecipesLLM invalidJsonOracle [recA, recB] none (some 0) (some 0)
        none 0 true).1.total_attempted = 2 := by decide

/-! ## Claim C3 -/

/-- Claim C3, corrected.  When a truthy `sample_size` and a range are both
supplied, the *command-level* validation is what fires: it emits the warning
("Sample mode overrides range specification") and drops the range keys, so
the resolved working set is the one determined by the sample alone.  Only
inside the resolver itself does a supplied range win over `sample_size`, and
that path surfaces no warning. -/
theorem C3_sample_range_precedence :
    (∀ (s : SelectionSettings) (records : List Record),
        pyTruthyInt s.sample_size →
        (s.start_index ≠ none ∨ s.end_index ≠ none) →
          validateSampleRange s =
            ({ s with start_index := none, end_index := none }, true) ∧
          commandSelect s records = selectRecords s.sample_size none none records)
    ∧ (∀ (sampleSize startIndex endIndex : Option Int) (records : List Record),
        startIndex ≠ none ∨ endIndex ≠ none →
          selectRecords sampleSize startIndex endIndex records =
            selectRecords none startIndex endIndex records) := by
  constructor
  · intro s records h1 h2
    have hv : validateSampleRange s =
        ({ s with start_index := none, end_index := none }, true) := by
      simp [validateSampleRange, h1, h2]
    exact ⟨hv, by simp [commandSelect, hv]⟩
  · intro sampleSize startIndex endIndex records h
    simp [selectRecords, h]

/-- Counterexample to claim C3 as stated: with `sample_size = 1` and range
`[0, 1]` both supplied to the command, the resolved working set has one
record (the sample's), not the two the range alone would select. -/
theorem C3_counterexample :
    (commandSelect ⟨some 1, some 0, some 1⟩ [recA, recB, recC]).length = 1 ∧
      (selectRecords none (some 0) (some 1) [recA, recB, recC]).length = 2 := by
  decide

/-- Witness for C3: the validation at a concrete conflicting setting warns
and drops the range. -/
theorem C3_witness :
    validateSampleRange ⟨some 1, some 0, some 1⟩ =
      ({ sample_size := some 1, start_index := none, end_index := none }, true) ∧
    commandSelect ⟨some 1, some 0, some 1⟩ [recA, recB, recC] =
      selectRecords (some 1) none none [recA, recB, recC] :=
  C3_sample_range_precedence.1 ⟨some 1, some 0, some 1⟩ [recA, recB, recC]
    (by decide) (by decide)

/-! ## Claim C5 -/

/-- Claim C5, corrected.  In either mode, the worker fails exactly on a
raised service call or on response text that does not decode
(`analyzeSingleRecipe … = none` iff the outcome is `serviceFailure` or an
undecodable response), and a decoded JSON object is returned as-is even
when required keys are missing (they are only logged).  But
`_analyze_and_store_recipe` tests that result with `if categorization:` —
Python dictionary truthiness — so a decoded but *empty* object is falsy
and is recorded as a failure after all: a Failed Analysis is appended
exactly when the worker returned `None` or the decoded object has no keys,
and a record with all required keys absent is downgraded precisely in the
empty-object case. -/
theorem C5_failure_characterization :
    ∀ includeContentReview : Bool,
      (∀ outcome : ServiceOutcome,
          analyzeSingleRecipe includeContentReview outcome = none ↔
            outcome = .serviceFailure ∨ outcome = .response none)
      ∧ (∀ p : Payload,
          analyzeSingleRecipe includeContentReview (.response (some p)) = some p)
      ∧ (∀ (oracle : Int → ServiceOutcome) (record : Record) (idx : Int)
            (results : Results),
          (analyzeAndStoreRecipe oracle includeContentReview record idx
              results).failed_analyses =
            results.failed_analyses ++
              (match analyzeSingleRecipe includeContentReview (oracle idx) with
               | some p =>
                   if p.pyTruthy then []
                   else [{ recipe_index := idx,
                           title := record.title.getD "Untitled",
                           existing_tags := record.tags.getD [] }]
               | none =>
                   [{ recipe_index := idx, title := record.title.getD "Untitled",
                      existing_tags := record.tags.getD [] }])) := by
  intro rev
  refine ⟨?_, ?_, ?_⟩
  · intro o
    rcases o with _ | p
    · simp [analyzeSingleRecipe]
    · cases p <;> simp [analyzeSingleRecipe]
  · intro p
    rfl
  · intro oracle record idx results
    cases h : analyzeSingleRecipe rev (oracle idx) with
    | none => simp [analyzeAndStoreRecipe, h]
    | some p =>
        simp only [analyzeAndStoreRecipe, h]
        split_ifs <;> simp_all

/-- Counterexample to claim C5 as stated: the empty JSON object decodes
fine — the worker even returns it, with every required key reported
missing — yet `if categorization:` is false for the empty dictionary, so
the record lands in `failed_analyses` although the response text was valid
JSON and the service call neither raised nor timed out. -/
theorem C5_counterexample :
    analyzeSingleRecipe true (.response (some Payload.empty)) =
        some Payload.empty
    ∧ missingFields Payload.empty ≠ []
    ∧ (analyzeAndStoreRecipe (fun _ => .response (some Payload.empty)) true
          recA 0 (initResults 1)).failed_analyses =
        [{ recipe_index := 0, title := "Pasta Carbonara",
           existing_tags := ["Dinner"] }] := by
  decide

/-! ## Aggregator step lemmas -/

/-- Incrementing a distribution adds exactly one to its total count. -/
theorem sumCounts_incr [DecidableEq κ] (d : List (κ × Nat)) (k : κ) :
    sumCounts (incr d k) = sumCounts d + 1 := by
  induction d with
  | nil => rfl
  | cons p rest ih =>
      obtain ⟨k', v⟩ := p
      by_cases h : k' = k <;> simp [incr, h, sumCounts] at ih ⊢ <;> omega

/-- One aggregation step never touches `total_attempted`. -/
theorem analyzeAndStoreRecipe_attempted (oracle : Int → ServiceOutcome)
    (rev : Bool) (record : Record) (idx : Int) (results : Results) :
    (analyzeAndStoreRecipe oracle rev record idx results).total_attempted =
      results.total_attempted := by
  cases h : analyzeSingleRecipe rev (oracle idx) <;>
    simp only [analyzeAndStoreRecipe, h] <;> split_ifs <;> rfl

/-- One aggregation step never touches `average_quality_score`. -/
theorem analyzeAndStoreRecipe_avg (oracle : Int → ServiceOutcome)
    (rev : Bool) (record : Record) (idx : Int) (results : Results) :
    (analyzeAndStoreRecipe oracle rev record idx
        results).content_quality_stats.average_quality_score =
      results.content_quality_stats.average_quality_score := by
  cases h : analyzeSingleRecipe rev (oracle idx) <;>
    simp only [analyzeAndStoreRecipe, h] <;> split_ifs <;> rfl

/-- One aggregation step increments `total_analyzed + len(failed_analyses)`
by exactly one: each record is folded as a success or as a failure, never
both and never neither. -/
theorem analyzeAndStoreRecipe_partition (oracle : Int → ServiceOutcome)
    (rev : Bool) (record : Record) (idx : Int) (results : Results) :
    (analyzeAndStoreRecipe oracle rev record idx results).total_analyzed +
        (analyzeAndStoreRecipe oracle rev record idx
          results).failed_analyses.length =
      results.total_analyzed + results.failed_analyses.length + 1 := by
  cases h : analyzeSingleRecipe rev (oracle idx)
  case none => simp [analyzeAndStoreRecipe, h]; omega
  case some p =>
      simp only [analyzeAndStoreRecipe, h]
      split_ifs <;> simp <;> omega

/-- Field `total_analyzed` grows by one exactly on a truthy success: a
decoded object that passes the `if categorization:` truthiness test. -/
theorem analyzeAndStoreRecipe_analyzed (oracle : Int → ServiceOutcome)
    (rev : Bool) (record : Record) (idx : Int) (results : Results) :
    (analyzeAndStoreRecipe oracle rev record idx results).total_analyzed =
      results.total_analyzed +
        (match analyzeSingleRecipe rev (oracle idx) with
         | some p => if p.pyTruthy then 1 else 0
         | none => 0) := by
  cases h : analyzeSingleRecipe rev (oracle idx)
  case none => simp [analyzeAndStoreRecipe, h]
  case some p =>
      simp only [analyzeAndStoreRecipe, h]
      split_ifs <;> rfl

set_option maxHeartbeats 1600000 in
/-- The category-distribution total grows by one exactly on a truthy
success whose `primary_category` is truthy (non-null and non-empty), else
stays. -/
theorem analyzeAndStoreRecipe_catsum (oracle : Int → ServiceOutcome)
    (rev : Bool) (record : Record) (idx : Int) (results : Results) :
    sumCounts (analyzeAndStoreRecipe oracle rev record idx
        results).category_distribution =
      sumCounts results.category_distribution +
        (match analyzeSingleRecipe rev (oracle idx) with
         | some p =>
             if p.pyTruthy then
               (if pyTruthyStr p.primary_category then 1 else 0)
             else 0
         | none => 0) := by
  cases h : analyzeSingleRecipe rev (oracle idx)
  case none => simp [analyzeAndStoreRecipe, h]
  case some p =>
      simp only [analyzeAndStoreRecipe, h]
      split_ifs <;> simp [sumCounts_incr]

/-- Outside content-review mode, one step leaves the whole
`content_quality_stats` record untouched. -/
theorem analyzeAndStoreRecipe_stats_no_review (oracle : Int → ServiceOutcome)
    (record : Record) (idx : Int) (results : Results) :
    (analyzeAndStoreRecipe oracle false record idx
        results).content_quality_stats = results.content_quality_stats := by
  cases h : analyzeSingleRecipe false (oracle idx)
  case none => simp [analyzeAndStoreRecipe, h]
  case some p =>
      simp [analyzeAndStoreRecipe, h, apply_ite Results.content_quality_stats]

/-! ## Ceiling-division and slice arithmetic -/

/-- Characterization of the batch count `(N + B - 1) / B` (ceiling of
`N / B`): there are more than `k` batches iff `k` full batches do not cover
`N` records. -/
theorem lt_ceil_iff (N B k : Nat) (hB : 0 < B) :
    k < (N + B - 1) / B ↔ k * B < N := by
  rw [Nat.lt_iff_add_one_le, Nat.le_div_iff_mul_le hB, add_mul, one_mul]
  constructor <;> (intro h; revert h; generalize k * B = x; intro h; omega)

/-- The count `(len(records) + batch_size - 1) // batch_size` agrees with the `Nat`
ceiling division for a positive batch size. -/
theorem pyFloorDiv_ceil (N B : Nat) (hB : 0 < B) :
    (pyFloorDiv ((N : Int) + (B : Int) - 1) (B : Int)).toNat = (N + B - 1) / B := by
  have h1 : (N : Int) + (B : Int) - 1 = ((N + B - 1 : Nat) : Int) := by omega
  rw [pyFloorDiv, h1, Int.fdiv_eq_ediv _ (by positivity), ← Int.ofNat_ediv,
    Int.toNat_natCast]

/-- The slice `records[bn*B : min(bn*B + B, len)]` taken by the batch loop
is `take B` of `drop (bn*B)`. -/
theorem pySlice_batch (xs : List α) (B bn : Nat) :
    pySlice xs ((bn : Int) * (B : Int))
        (min ((bn : Int) * (B : Int) + (B : Int)) (xs.length : Int)) =
      (xs.drop (bn * B)).take B := by
  simp only [pySlice]
  have e2 : ((bn : Int) * (B : Int) + (B : Int)) = ((bn * B + B : Nat) : Int) := by
    push_cast; ring
  have e1 : ((bn : Int) * (B : Int)) = ((bn * B : Nat) : Int) := by push_cast; ring
  rw [e2, e1, ← Nat.cast_min]
  rw [if_neg (by omega), if_neg (by omega)]
  rw [Int.toNat_natCast, Int.toNat_natCast]
  generalize bn * B = s
  rcases le_or_lt s xs.length with hs | hs
  · have hlo : min s xs.length = s := min_eq_left hs
    have hhi : min (min (s + B) xs.length) xs.length = min (s + B) xs.length := by
      omega
    rw [hlo, hhi, List.drop_take]
    rcases le_or_lt (s + B) xs.length with h2 | h2
    · rw [min_eq_left h2]
      congr 1
      omega
    · rw [min_eq_right (le_of_lt h2)]
      rw [List.take_all_of_le (by simp [List.length_drop]; try omega),
        List.take_all_of_le (by simp [List.length_drop]; try omega)]
  · have hlo : min s xs.length = xs.length := min_eq_right (le_of_lt hs)
    rw [hlo]
    rw [List.drop_eq_nil_of_le (by simp [List.length_take]; try omega),
      List.drop_eq_nil_of_le (le_of_lt hs)]
    simp

/-! ## Loop-lifting lemmas -/

/-- Any property preserved by one aggregation step is preserved by the
per-batch record loop. -/
theorem processRecordsLoop_preserve (oracle : Int → ServiceOutcome)
    (rev : Bool) (P : Results → Prop)
    (hstep : ∀ record idx res, P res →
      P (analyzeAndStoreRecipe oracle rev record idx res)) :
    ∀ (l : List Record) (idx : Int) (res : Results),
      P res → P (processRecordsLoop oracle rev l idx res) := by
  intro l
  induction l with
  | nil => intro idx res h; exact h
  | cons record rest ih =>
      intro idx res h
      exact ih (idx + 1) _ (hstep record idx res h)

/-- The record loop adds exactly the batch size to
`total_analyzed + len(failed_analyses)`. -/
theorem processRecordsLoop_partition (oracle : Int → ServiceOutcome)
    (rev : Bool) :
    ∀ (l : List Record) (idx : Int) (res : Results),
      (processRecordsLoop oracle rev l idx res).total_analyzed +
          (processRecordsLoop oracle rev l idx res).failed_analyses.length =
        res.total_analyzed + res.failed_analyses.length + l.length := by
  intro l
  induction l with
  | nil => intro idx res; simp [processRecordsLoop]
  | cons record rest ih =>
      intro idx res
      have h := analyzeAndStoreRecipe_partition oracle rev record idx res
      simp only [processRecordsLoop, ih, List.length_cons]
      omega

/-- Any property preserved by one aggregation step is preserved by the
batched loop. -/
theorem processInBatchesLoop_preserve (oracle : Int → ServiceOutcome)
    (rev : Bool) (records : List Record) (b : Int) (delay : ℚ) (off : Int)
    (numB : Nat) (P : Results → Prop)
    (hstep : ∀ record idx res, P res →
      P (analyzeAndStoreRecipe oracle rev record idx res)) :
    ∀ (fuel bn : Nat) (res : Results),
      P res →
        P (processInBatchesLoop oracle rev records b delay off numB fuel bn
            res).1 := by
  intro fuel
  induction fuel with
  | zero => intro bn res h; exact h
  | succ fuel ih =>
      intro bn res h
      exact ih (bn + 1) _ (processRecordsLoop_preserve oracle rev P hstep _ _ _ h)

/-- The batched loop, run over its full schedule, adds exactly the number of
remaining records to `total_analyzed + len(failed_analyses)`. -/
theorem processInBatchesLoop_partition (oracle : Int → ServiceOutcome)
    (rev : Bool) (records : List Record) (B : Nat) (delay : ℚ) (off : Int)
    (numB : Nat) (hB : 0 < B)
    (hnumB : numB = (records.length + B - 1) / B) :
    ∀ (fuel bn : Nat) (res : Results), fuel + bn = numB →
      (processInBatchesLoop oracle rev records (B : Int) delay off numB fuel bn
            res).1.total_analyzed +
          (processInBatchesLoop oracle rev records (B : Int) delay off numB fuel
            bn res).1.failed_analyses.length =
        res.total_analyzed + res.failed_analyses.length +
          (records.drop (bn * B)).length := by
  intro fuel
  induction fuel with
  | zero =>
      intro bn res hsum
      have hbn : bn = numB := by omega
      have h2 : ¬ (numB * B < records.length) := by
        intro hc
        have h3 := (lt_ceil_iff records.length B numB hB).mpr hc
        omega
      have hdrop : records.drop (bn * B) = [] := by
        rw [hbn]
        exact List.drop_eq_nil_of_le (Nat.le_of_not_lt h2)
      simp [processInBatchesLoop, hdrop]
  | succ fuel ih =>
      intro bn res hsum
      simp only [processInBatchesLoop, pySlice_batch]
      have hrec := processRecordsLoop_partition oracle rev
        ((records.drop (bn * B)).take B) (off + (bn : Int) * (B : Int))
        res
      have hnext := ih (bn + 1)
        (processRecordsLoop oracle rev ((records.drop (bn * B)).take B)
          (off + (bn : Int) * (B : Int)) res) (by omega)
      have hlen1 : ((records.drop (bn * B)).take B).length =
          min B (records.length - bn * B) := by
        simp [List.length_take, List.length_drop]
      have hmul : (bn + 1) * B = bn * B + B := by ring
      rw [hmul] at hnext
      rw [hlen1] at hrec
      have hlen2 : (records.drop (bn * B + B)).length =
          records.length - (bn * B + B) := List.length_drop _ _
      have hlen3 : (records.drop (bn * B)).length =
          records.length - bn * B := List.length_drop _ _
      rw [hlen2] at hnext
      rw [hlen3]
      obtain ⟨s, hs⟩ : ∃ s, bn * B = s := ⟨_, rfl⟩
      rw [hs] at hrec hnext ⊢
      omega

/-! ## Trace-shape lemmas for the batch scheduler -/

/-- A leading batch event contributes its records to `batchesOf`. -/
theorem batchesOf_cons_batch (l : List α) (t : List (BatchEvent α)) :
    batchesOf (BatchEvent.batch l :: t) = l :: batchesOf t := by
  simp [batchesOf]

/-- A leading sleep event is invisible to `batchesOf`. -/
theorem batchesOf_cons_sleep (d : ℚ) (t : List (BatchEvent α)) :
    batchesOf (BatchEvent.sleep d :: t) = batchesOf t := by
  simp [batchesOf]

/-- Unfolding one iteration of the batch loop's trace. -/
theorem processInBatchesLoop_trace_step (oracle : Int → ServiceOutcome)
    (rev : Bool) (records : List Record) (B : Nat) (delay : ℚ) (off : Int)
    (numB fuel bn : Nat) (res : Results) :
    (processInBatchesLoop oracle rev records (B : Int) delay off numB
        (fuel + 1) bn res).2 =
      BatchEvent.batch ((records.drop (bn * B)).take B) ::
        ((if delay > 0 ∧ bn < numB - 1 then [BatchEvent.sleep delay] else []) ++
          (processInBatchesLoop oracle rev records (B : Int) delay off numB
            fuel (bn + 1)
            (processRecordsLoop oracle rev ((records.drop (bn * B)).take B)
              (off + (bn : Int) * (B : Int)) res)).2) := by
  have h : (processInBatchesLoop oracle rev records (B : Int) delay off numB
        (fuel + 1) bn res).2 =
      BatchEvent.batch (pySlice records ((bn : Int) * (B : Int))
          (min ((bn : Int) * (B : Int) + (B : Int)) (records.length : Int))) ::
        ((if delay > 0 ∧ bn < numB - 1 then [BatchEvent.sleep delay] else []) ++
          (processInBatchesLoop oracle rev records (B : Int) delay off numB
            fuel (bn + 1)
            (processRecordsLoop oracle rev
              (pySlice records ((bn : Int) * (B : Int))
                (min ((bn : Int) * (B : Int) + (B : Int)) (records.length : Int)))
              (off + (bn : Int) * (B : Int)) res)).2) := rfl
  rw [h, pySlice_batch]

/-- Full description of the trace produced by the `_process_in_batches`
loop over its remaining schedule: one batch per remaining iteration, the
batches are the contiguous slices that join back to the remaining records,
every batch except the final one holds exactly `B` records, the final one
holds the remainder, and a sleep separates consecutive batches exactly when
the delay is positive. -/
theorem processInBatchesLoop_trace (oracle : Int → ServiceOutcome) (rev : Bool)
    (records : List Record) (B : Nat) (delay : ℚ) (off : Int) (numB : Nat)
    (hB : 0 < B) (hnumB : numB = (records.length + B - 1) / B) :
    ∀ (fuel bn : Nat) (res : Results), fuel + bn = numB →
      ∀ t, t = (processInBatchesLoop oracle rev records (B : Int) delay off
          numB fuel bn res).2 →
        (batchesOf t).length = fuel
        ∧ (batchesOf t).flatten = records.drop (bn * B)
        ∧ (∀ l ∈ (batchesOf t).dropLast, l.length = B)
        ∧ (∀ l, (batchesOf t).getLast? = some l →
            (numB - 1) * B + l.length = records.length)
        ∧ t = (if delay > 0 then sleepSeparated delay (batchesOf t)
               else (batchesOf t).map BatchEvent.batch) := by
  intro fuel
  induction fuel with
  | zero =>
      intro bn res hsum t ht
      have hbn : bn = numB := by omega
      have hcover : records.length ≤ numB * B := by
        by_contra hcon
        have := (lt_ceil_iff records.length B numB hB).mpr (Nat.lt_of_not_le hcon)
        omega
      have hdrop : records.drop (bn * B) = [] := by
        rw [hbn]
        exact List.drop_eq_nil_of_le hcover
      subst ht
      simp [processInBatchesLoop, batchesOf, sleepSeparated, hdrop]
  | succ fuel ih =>
      intro bn res hsum t ht
      have hbn_lt : bn * B < records.length :=
        (lt_ceil_iff records.length B bn hB).mp (by omega)
      have hcover : records.length ≤ numB * B := by
        by_contra hcon
        have := (lt_ceil_iff records.length B numB hB).mpr (Nat.lt_of_not_le hcon)
        omega
      have hfull : 1 ≤ fuel → bn * B + B ≤ records.length := by
        intro hf
        have h1 := (lt_ceil_iff records.length B (bn + 1) hB).mp (by omega)
        have h2 : (bn + 1) * B = bn * B + B := by ring
        omega
      have hlastub : fuel = 0 → records.length ≤ bn * B + B := by
        intro hf
        have h3 : bn + 1 = numB := by omega
        have h2 : (bn + 1) * B = bn * B + B := by ring
        calc records.length ≤ numB * B := hcover
          _ = (bn + 1) * B := by rw [h3]
          _ = bn * B + B := h2
      rw [processInBatchesLoop_trace_step] at ht
      set bc := (records.drop (bn * B)).take B with hbc
      have hbc_len : bc.length = min B (records.length - bn * B) := by
        rw [hbc]
        simp [List.length_take, List.length_drop]
      obtain ⟨ih1, ih2, ih3, ih4, ih5⟩ := ih (bn + 1)
        (processRecordsLoop oracle rev bc (off + (bn : Int) * (B : Int)) res)
        (by omega) _ rfl
      set t' := (processInBatchesLoop oracle rev records (B : Int) delay off
        numB fuel (bn + 1)
        (processRecordsLoop oracle rev bc (off + (bn : Int) * (B : Int))
          res)).2 with ht'
      subst ht
      have hflat : ∀ bs : List (List Record), bs.flatten = records.drop ((bn + 1) * B) →
          (bc :: bs).flatten = records.drop (bn * B) := by
        intro bs hbs
        simp only [List.flatten_cons, hbs]
        rw [show (bn + 1) * B = bn * B + B by ring, ← List.drop_drop, hbc]
        exact List.take_append_drop B (records.drop (bn * B))
      have hbc_full : 1 ≤ fuel → bc.length = B := by
        intro hf
        have := hfull hf
        rw [hbc_len]
        obtain ⟨s, hs⟩ : ∃ s, bn * B = s := ⟨_, rfl⟩
        rw [hs] at this ⊢
        omega
      have hbc_last : fuel = 0 → (numB - 1) * B + bc.length = records.length := by
        intro hf
        have hub := hlastub hf
        have hlast : numB - 1 = bn := by omega
        rw [hlast, hbc_len]
        obtain ⟨s, hs⟩ : ∃ s, bn * B = s := ⟨_, rfl⟩
        rw [hs] at hub hbn_lt ⊢
        omega
      by_cases hcnd : delay > 0 ∧ bn < numB - 1
      · -- a sleep follows this batch
        rw [if_pos hcnd]
        have hfuel : 1 ≤ fuel := by omega
        simp only [List.cons_append, List.nil_append, batchesOf_cons_batch,
          batchesOf_cons_sleep]
        rcases hbs : batchesOf t' with _ | ⟨b, bs''⟩
        · rw [hbs] at ih1
          simp only [List.length_nil] at ih1
          omega
        · rw [hbs] at ih1 ih2 ih3 ih4 ih5
          refine ⟨?_, hflat _ ih2, ?_, ?_, ?_⟩
          · simp only [List.length_cons] at ih1 ⊢
            omega
          · intro l hl
            rw [List.dropLast_cons₂] at hl
            rcases List.mem_cons.mp hl with hl | hl
            · subst hl
              exact hbc_full hfuel
            · exact ih3 l hl
          · intro l hl
            rw [List.getLast?_cons_cons] at hl
            exact ih4 l hl
          · rw [if_pos hcnd.1] at ih5 ⊢
            simp only [sleepSeparated]
            rw [← ih5]
      · -- no sleep follows this batch
        rw [if_neg hcnd]
        simp only [List.nil_append, batchesOf_cons_batch]
        rcases hbs : batchesOf t' with _ | ⟨b, bs''⟩
        · -- the tail trace is empty: this was the last batch
          rw [hbs] at ih1 ih2 ih3 ih4 ih5
          simp only [List.length_nil] at ih1
          have hfuel0 : fuel = 0 := ih1.symm
          have htail : t' = [] := by
            rw [ih5]
            split_ifs <;> rfl
          rw [htail]
          refine ⟨by simp [hfuel0], ?_, by simp, ?_, ?_⟩
          · apply hflat
            simp only [List.flatten_nil]
            symm
            apply List.drop_eq_nil_of_le
            have h2 : (bn + 1) * B = bn * B + B := by ring
            have := hlastub hfuel0
            omega
          · intro l hl
            simp only [List.getLast?_singleton, Option.some.injEq] at hl
            subst hl
            exact hbc_last hfuel0
          · split_ifs <;> simp [sleepSeparated]
        · -- the tail trace is nonempty: delay must be non-positive
          rw [hbs] at ih1 ih2 ih3 ih4 ih5
          have hfuel : 1 ≤ fuel := by
            simp only [List.length_cons] at ih1
            omega
          have hd : ¬ delay > 0 := by
            intro hd
            exact hcnd ⟨hd, by omega⟩
          refine ⟨?_, hflat _ ih2, ?_, ?_, ?_⟩
          · simp only [List.length_cons] at ih1 ⊢
            omega
          · intro l hl
            rw [List.dropLast_cons₂] at hl
            rcases List.mem_cons.mp hl with hl | hl
            · subst hl
              exact hbc_full hfuel
            · exact ih3 l hl
          · intro l hl
            rw [List.getLast?_cons_cons] at hl
            exact ih4 l hl
          · rw [if_neg hd] at ih5 ⊢
            rw [List.map_cons, ← ih5]

/-! ## Post-processing lemmas -/

/-- Post-processing `_calculate_content_quality_stats` writes only
`average_quality_score`; every other field survives unchanged. -/
theorem calculateContentQualityStats_eq (r : Results) :
    (calculateContentQualityStats r).total_analyzed = r.total_analyzed
    ∧ (calculateContentQualityStats r).total_attempted = r.total_attempted
    ∧ (calculateContentQualityStats r).categorizations = r.categorizations
    ∧ (calculateContentQualityStats r).category_distribution =
        r.category_distribution
    ∧ (calculateContentQualityStats r).failed_analyses = r.failed_analyses
    ∧ (calculateContentQualityStats r).content_quality_stats.non_recipes =
        r.content_quality_stats.non_recipes
    ∧ (calculateContentQualityStats
          r).content_quality_stats.titles_needing_improvement =
        r.content_quality_stats.titles_needing_improvement
    ∧ (calculateContentQualityStats
          r).content_quality_stats.quality_distribution =
        r.content_quality_stats.quality_distribution := by
  simp only [calculateContentQualityStats]
  split_ifs <;> simp

/-- Starting from the untouched initial value `0`,
`_calculate_content_quality_stats` sets `average_quality_score` to the mean
of the positive quality scores. -/
theorem calculateContentQualityStats_avg (r : Results)
    (h : r.content_quality_stats.average_quality_score = 0) :
    (calculateContentQualityStats
        r).content_quality_stats.average_quality_score =
      meanPositiveQualityScores r.categorizations := by
  simp only [calculateContentQualityStats, meanPositiveQualityScores]
  split_ifs <;> simp_all

/-! ## Dispatch backbone -/

/-- Every run's report is `_calculate_content_quality_stats` applied to a
fold of `_analyze_and_store_recipe` steps over the working set, whichever
scheduling path is taken; hence any per-step invariant that holds of the
initial report holds of the folded report. -/
theorem categorizeRecipesLLM_preserve (oracle : Int → ServiceOutcome)
    (recipeData : List Record) (ss si ei bs : Option Int) (delay : ℚ)
    (rev : Bool) (P : Results → Prop)
    (hstep : ∀ record idx res, P res →
      P (analyzeAndStoreRecipe oracle rev record idx res))
    (hinit : P (initResults (selectRecords ss si ei recipeData).length)) :
    ∃ r, (categorizeRecipesLLM oracle recipeData ss si ei bs delay rev).1 =
        calculateContentQualityStats r ∧ P r := by
  simp only [categorizeRecipesLLM]
  rcases bs with _ | b
  · exact ⟨_, rfl,
      processRecordsLoop_preserve oracle rev P hstep _ _ _ hinit⟩
  · dsimp only
    split_ifs with hb
    · exact ⟨_, rfl,
        processInBatchesLoop_preserve oracle rev _ _ _ _ _ P hstep _ _ _ hinit⟩
    · exact ⟨_, rfl,
        processRecordsLoop_preserve oracle rev P hstep _ _ _ hinit⟩

/-! ## Claim C8 -/

/-- Claim C8, confirmed.  In every run the counts in
`category_distribution` sum to at most `total_analyzed`; and per step, a
successfully analyzed record (a decoded object passing the
`if categorization:` truthiness test) increments `total_analyzed` by one
while the distribution total grows by one exactly when `primary_category`
is truthy (non-null, non-empty), else not at all; a falsy decoded object
increments neither. -/
theorem C8_category_distribution_sum :
    (∀ (oracle : Int → ServiceOutcome) (recipeData : List Record)
        (ss si ei bs : Option Int) (delay : ℚ) (rev : Bool),
        sumCounts (categorizeRecipesLLM oracle recipeData ss si ei bs delay
            rev).1.category_distribution ≤
          (categorizeRecipesLLM oracle recipeData ss si ei bs delay
            rev).1.total_analyzed)
    ∧ (∀ (p : Payload) (rev : Bool) (record : Record) (idx : Int)
          (results : Results),
        (analyzeAndStoreRecipe (fun _ => .response (some p)) rev record idx
            results).total_analyzed =
          results.total_analyzed + (if p.pyTruthy then 1 else 0)
        ∧ sumCounts (analyzeAndStoreRecipe (fun _ => .response (some p)) rev
              record idx results).category_distribution =
            sumCounts results.category_distribution +
              (if p.pyTruthy then
                  (if pyTruthyStr p.primary_category then 1 else 0)
                else 0)) := by
  constructor
  · intro oracle recipeData ss si ei bs delay rev
    obtain ⟨r, hr, hP⟩ := categorizeRecipesLLM_preserve oracle recipeData ss si
      ei bs delay rev
      (fun r => sumCounts r.category_distribution ≤ r.total_analyzed)
      (fun record idx res h => by
        dsimp only at h ⊢
        have h1 := analyzeAndStoreRecipe_analyzed oracle rev record idx res
        have h2 := analyzeAndStoreRecipe_catsum oracle rev record idx res
        rw [h1, h2]
        cases hm : analyzeSingleRecipe rev (oracle idx) with
        | none => simpa using h
        | some p =>
            dsimp only
            split_ifs <;> omega)
      (by simp [initResults, sumCounts])
    rw [hr, (calculateContentQualityStats_eq r).2.2.2.1,
      (calculateContentQualityStats_eq r).1]
    exact hP
  · intro p rev record idx results
    constructor
    · have h := analyzeAndStoreRecipe_analyzed (fun _ => .response (some p))
        rev record idx results
      simpa [analyzeSingleRecipe] using h
    · have h := analyzeAndStoreRecipe_catsum (fun _ => .response (some p))
        rev record idx results
      simpa [analyzeSingleRecipe] using h

/-! ## Claim C10 -/

/-- Claim C10, confirmed.  `average_quality_score` is always the mean of the
positive quality scores of the collected categorizations, whatever the value
of `include_content_review`; with the flag off, `quality_distribution`,
`non_recipes` and `titles_needing_improvement` are never updated; and a
concrete flag-off run exhibits a nonzero average alongside an empty
distribution and zero counters. -/
theorem C10_average_quality_score :
    (∀ (oracle : Int → ServiceOutcome) (recipeData : List Record)
        (ss si ei bs : Option Int) (delay : ℚ) (rev : Bool),
        (categorizeRecipesLLM oracle recipeData ss si ei bs delay
            rev).1.content_quality_stats.average_quality_score =
          meanPositiveQualityScores (categorizeRecipesLLM oracle recipeData ss
            si ei bs delay rev).1.categorizations)
    ∧ (∀ (oracle : Int → ServiceOutcome) (recipeData : List Record)
        (ss si ei bs : Option Int) (delay : ℚ),
        (categorizeRecipesLLM oracle recipeData ss si ei bs delay
            false).1.content_quality_stats.quality_distribution = []
        ∧ (categorizeRecipesLLM oracle recipeData ss si ei bs delay
            false).1.content_quality_stats.non_recipes = 0
        ∧ (categorizeRecipesLLM oracle recipeData ss si ei bs delay
            false).1.content_quality_stats.titles_needing_improvement = 0)
    ∧ ((categorizeRecipesLLM beefOracle [recA] none none none none 0
          false).1.content_quality_stats.average_quality_score = 4
        ∧ (categorizeRecipesLLM beefOracle [recA] none none none none 0
            false).1.content_quality_stats.quality_distribution = []
        ∧ (categorizeRecipesLLM beefOracle [recA] none none none none 0
            false).1.content_quality_stats.non_recipes = 0) := by
  refine ⟨?_, ?_, ?_, ?_, ?_⟩
  · intro oracle recipeData ss si ei bs delay rev
    obtain ⟨r, hr, hP⟩ := categorizeRecipesLLM_preserve oracle recipeData ss si
      ei bs delay rev
      (fun r => r.content_quality_stats.average_quality_score = 0)
      (fun record idx res h => by
        dsimp only at h ⊢
        rw [analyzeAndStoreRecipe_avg]
        exact h)
      rfl
    rw [hr, (calculateContentQualityStats_eq r).2.2.1,
      calculateContentQualityStats_avg r hP]
  · intro oracle recipeData ss si ei bs delay
    obtain ⟨r, hr, hP⟩ := categorizeRecipesLLM_preserve oracle recipeData ss si
      ei bs delay false
      (fun r => r.content_quality_stats.quality_distribution = []
        ∧ r.content_quality_stats.non_recipes = 0
        ∧ r.content_quality_stats.titles_needing_improvement = 0)
      (fun record idx res h => by
        dsimp only at h ⊢
        have hs := analyzeAndStoreRecipe_stats_no_review oracle record idx res
        exact ⟨by rw [hs]; exact h.1, by rw [hs]; exact h.2.1,
          by rw [hs]; exact h.2.2⟩)
      ⟨rfl, rfl, rfl⟩
    constructor
    · rw [hr, (calculateContentQualityStats_eq r).2.2.2.2.2.2.2]
      exact hP.1
    constructor
    · rw [hr, (calculateContentQualityStats_eq r).2.2.2.2.2.1]
      exact hP.2.1
    · rw [hr, (calculateContentQualityStats_eq r).2.2.2.2.2.2.1]
      exact hP.2.2
  · simp +decide [categorizeRecipesLLM, selectRecords, pyTruthyInt,
      processSingleBatch, processRecordsLoop, analyzeAndStoreRecipe,
      analyzeSingleRecipe, beefOracle, initResults,
      calculateContentQualityStats, pyOrInt, recA, payloadBeef, Payload.empty,
      Payload.pyTruthy, pyTruthyStr, incr, incrAll]
  · decide
  · decide

/-! ## Claim C1 -/

/-- The single-pass path satisfies the partition invariant. -/
theorem calc_single_partition (oracle : Int → ServiceOutcome) (rev : Bool)
    (records : List Record) (off : Int) :
    (calculateContentQualityStats (processRecordsLoop oracle rev records off
        (initResults records.length))).total_analyzed +
        (calculateContentQualityStats (processRecordsLoop oracle rev records
          off (initResults records.length))).failed_analyses.length =
      (calculateContentQualityStats (processRecordsLoop oracle rev records off
        (initResults records.length))).total_attempted := by
  set r := processRecordsLoop oracle rev records off (initResults records.length)
    with hrdef
  have hpart := processRecordsLoop_partition oracle rev records off
    (initResults records.length)
  have hatt : r.total_attempted = records.length :=
    processRecordsLoop_preserve oracle rev
      (fun x => x.total_attempted = records.length)
      (fun record idx res h => by
        dsimp only at h ⊢
        rw [analyzeAndStoreRecipe_attempted]
        exact h)
      records off (initResults records.length) rfl
  obtain ⟨e1, e2, _, _, e5, _⟩ := calculateContentQualityStats_eq r
  rw [e1, e2, e5]
  rw [← hrdef] at hpart
  simp only [initResults, List.length_nil] at hpart
  omega

/-- The batched path satisfies the partition invariant for a positive
batch size. -/
theorem calc_batches_partition (oracle : Int → ServiceOutcome) (rev : Bool)
    (records : List Record) (b : Int) (hb : 0 < b) (delay : ℚ) (off : Int) :
    (calculateContentQualityStats (processInBatches oracle rev records b delay
        off (initResults records.length)).1).total_analyzed +
        (calculateContentQualityStats (processInBatches oracle rev records b
          delay off (initResults records.length)).1).failed_analyses.length =
      (calculateContentQualityStats (processInBatches oracle rev records b
        delay off (initResults records.length)).1).total_attempted := by
  obtain ⟨B, rfl⟩ : ∃ B : Nat, b = (B : Int) := ⟨b.toNat, by omega⟩
  have hB : 0 < B := by omega
  simp only [processInBatches]
  rw [pyFloorDiv_ceil records.length B hB]
  set r := (processInBatchesLoop oracle rev records (B : Int) delay off
    ((records.length + B - 1) / B) ((records.length + B - 1) / B) 0
    (initResults records.length)).1 with hrdef
  have hpart := processInBatchesLoop_partition oracle rev records B delay off
    ((records.length + B - 1) / B) hB rfl ((records.length + B - 1) / B) 0
    (initResults records.length) (by omega)
  have hatt : r.total_attempted = records.length :=
    processInBatchesLoop_preserve oracle rev records (B : Int) delay off
      ((records.length + B - 1) / B)
      (fun x => x.total_attempted = records.length)
      (fun record idx res h => by
        dsimp only at h ⊢
        rw [analyzeAndStoreRecipe_attempted]
        exact h)
      ((records.length + B - 1) / B) 0 (initResults records.length) rfl
  obtain ⟨e1, e2, _, _, e5, _⟩ := calculateContentQualityStats_eq r
  rw [e1, e2, e5]
  rw [← hrdef] at hpart
  simp only [initResults, List.length_nil, Nat.zero_mul, List.drop_zero]
    at hpart
  omega

/-- Claim C1, corrected.  Whenever the supplied `batch_size` is not
negative (or is absent), every attempted record is folded exactly once —
as a success or as a Failed Analysis — so the returned report satisfies
`total_analyzed + len(failed_analyses) = total_attempted`.  (A negative
`batch_size` reaches `_process_in_batches` and derails the schedule, see
the counterexample.) -/
theorem C1_partition_invariant (oracle : Int → ServiceOutcome)
    (recipeData : List Record) (ss si ei bs : Option Int) (delay : ℚ)
    (rev : Bool) (hbs : ∀ b : Int, bs = some b → 0 ≤ b) :
    (categorizeRecipesLLM oracle recipeData ss si ei bs delay
          rev).1.total_analyzed +
        (categorizeRecipesLLM oracle recipeData ss si ei bs delay
          rev).1.failed_analyses.length =
      (categorizeRecipesLLM oracle recipeData ss si ei bs delay
        rev).1.total_attempted := by
  rcases bs with _ | b
  · simp only [categorizeRecipesLLM, processSingleBatch]
    exact calc_single_partition oracle rev _ _
  · simp only [categorizeRecipesLLM, processSingleBatch]
    split_ifs with hb
    · have hb0 : 0 ≤ b := hbs b rfl
      have hbpos : 0 < b := by
        rcases hb with ⟨hne, _⟩
        omega
      exact calc_batches_partition oracle rev _ b hbpos delay _
    · exact calc_single_partition oracle rev _ _

/-- Counterexample to claim C1 as stated: with `batch_size = -1` and one
record, `(len + batch_size - 1) // batch_size = 1` but the single batch is
`records[0:-1] = []`, so nothing is processed: `total_analyzed = 0` and
`failed_analyses` is empty while `total_attempted = 1`. -/
theorem C1_counterexample :
    (categorizeRecipesLLM invalidJsonOracle [recA] none none none (some (-1))
          0 true).1.total_analyzed +
        (categorizeRecipesLLM invalidJsonOracle [recA] none none none
          (some (-1)) 0 true).1.failed_analyses.length ≠
      (categorizeRecipesLLM invalidJsonOracle [recA] none none none
        (some (-1)) 0 true).1.total_attempted := by decide

/-- Witness for C1: a batched run over three records with mixed successes
and failures satisfies the partition invariant. -/
theorem C1_witness :
    (categorizeRecipesLLM mixedOracle [recA, recB, recC] none none none
          (some 2) 0 true).1.total_analyzed +
        (categorizeRecipesLLM mixedOracle [recA, recB, recC] none none none
          (some 2) 0 true).1.failed_analyses.length =
      (categorizeRecipesLLM mixedOracle [recA, recB, recC] none none none
        (some 2) 0 true).1.total_attempted :=
  C1_partition_invariant mixedOracle [recA, recB, recC] none none none
    (some 2) 0 true (fun b hb => by injection hb with h; omega)

/-! ## Claim C6 -/

/-- Claim C6, confirmed.  For a working set of size `n` and a batch size
`0 < b < n`, the scheduler runs exactly `⌈n / b⌉` contiguous batches in
increasing order (their concatenation is the working set), every batch but
the last holds exactly `b` records and the last holds the remainder, and a
sleep separates consecutive batches exactly when the delay is positive
(never after the last batch); with `batch_size` unset or `b ≥ n`, the whole
working set is processed in a single pass with no sleep. -/
theorem C6_batch_scheduler (oracle : Int → ServiceOutcome)
    (records : List Record) (delay : ℚ) (rev : Bool) :
    (∀ b : Int, 0 < b → b < (records.length : Int) →
      ∀ t, t = (categorizeRecipesLLM oracle records none none none (some b)
          delay rev).2 →
        (batchesOf t).length = (records.length + b.toNat - 1) / b.toNat
        ∧ (batchesOf t).flatten = records
        ∧ (∀ l ∈ (batchesOf t).dropLast, l.length = b.toNat)
        ∧ (∀ l, (batchesOf t).getLast? = some l →
            ((batchesOf t).length - 1) * b.toNat + l.length = records.length)
        ∧ t = (if delay > 0 then sleepSeparated delay (batchesOf t)
               else (batchesOf t).map BatchEvent.batch))
    ∧ (∀ bs : Option Int,
        bs = none ∨ (∃ b, bs = some b ∧ (records.length : Int) ≤ b) →
          (categorizeRecipesLLM oracle records none none none bs delay rev).2 =
            [BatchEvent.batch records]) := by
  have hsel : selectRecords none none none records = records := rfl
  constructor
  · intro b hb hlt t ht
    obtain ⟨B, rfl⟩ : ∃ B : Nat, b = (B : Int) := ⟨b.toNat, by omega⟩
    have hB : 0 < B := by omega
    simp only [categorizeRecipesLLM, processInBatches, hsel] at ht
    rw [if_pos ⟨by omega, hlt⟩] at ht
    rw [pyFloorDiv_ceil records.length B hB] at ht
    obtain ⟨c1, c2, c3, c4, c5⟩ := processInBatchesLoop_trace oracle rev
      records B delay (pyOrInt none 0) ((records.length + B - 1) / B) hB rfl
      ((records.length + B - 1) / B) 0 (initResults records.length) (by omega)
      t ht
    refine ⟨?_, ?_, ?_, ?_, ?_⟩
    · simpa using c1
    · simpa using c2
    · simpa using c3
    · intro l hl
      have h4 := c4 l hl
      rw [c1] at *
      simpa using h4
    · exact c5
  · intro bs hbs
    rcases hbs with rfl | ⟨b, rfl, hge⟩
    · rfl
    · simp only [categorizeRecipesLLM, processSingleBatch, hsel]
      rw [if_neg (fun hc => absurd hc.2 (not_lt.mpr hge))]

/-- Witness for C6: three records with `batch_size = 2` and a one-second
delay give two batches `[2, 1]` separated by one sleep. -/
theorem C6_witness :
    (batchesOf traceC6).length =
        (([recA, recB, recC] : List Record).length + (2 : Int).toNat - 1) /
          (2 : Int).toNat
    ∧ (batchesOf traceC6).flatten = [recA, recB, recC]
    ∧ (∀ l ∈ (batchesOf traceC6).dropLast, l.length = (2 : Int).toNat)
    ∧ (∀ l, (batchesOf traceC6).getLast? = some l →
        ((batchesOf traceC6).length - 1) * (2 : Int).toNat + l.length =
          ([recA, recB, recC] : List Record).length)
    ∧ traceC6 = (if (1 : ℚ) > 0 then sleepSeparated 1 (batchesOf traceC6)
        else (batchesOf traceC6).map BatchEvent.batch) :=
  (C6_batch_scheduler beefOracle [recA, recB, recC] 1 true).1 2 (by decide)
    (by decide) traceC6 (by decide)

end RecipeOrganizer
